import Mathlib

/-!
Verification of the analytics core of `src/Dashboard.py` (Sarah's 1:1 dashboard).

Modelling conventions, used throughout:

* Timestamps (`date`, `due_date`, the evaluation instant) are integers counting
  seconds; a day is 86400 seconds.  pandas stores nanoseconds, but every
  computation in the source only uses the order on timestamps and
  `Timedelta.days`, i.e. floor division of a difference by the length of a day,
  so only the ratio matters; `Int.fdiv` is floor division, exactly like
  `Timedelta.days` (which is `-1` for a negative sub-day difference).
* A pandas `DataFrame` of rows is an ordered `List` of `Record`s; boolean-mask
  selection `df[mask]` is `List.filter` (order preserving), `.sum()` of a
  boolean mask is `List.countP`, `len` is `List.length`, and `Series.unique`
  (which returns distinct values in order of first appearance) is `unique`
  below.
* `sentiment` and the derived `status` are the literal strings the source
  compares against (`"+"`, `"±"`, `"-"` and `"No Due"`, `"Overdue"`,
  `"Due Soon"`, `"On Track"`); `person`, `feature_category`, `topic` are
  strings (the spec's data model declares `person` and `feature_category`
  non-null, so `Series.dropna` on them is the identity and is not modelled).
* Markdown emphasis markers (`**…**`, `*…*`) that the source embeds in the
  insight strings are presentation only — the spec's §1 explicitly excludes
  all visual rendering — and are elided from the modelled strings.
* `value_counts()` returns the counts of the distinct values in descending
  count order and `idxmax()` returns the first index attaining the maximum;
  the order of equal-count entries after pandas' sort is implementation
  defined, and is modelled as order of first appearance (a stable descending
  sort), which the spec (§9) fixes as the intended deterministic reading.
  Likewise `sort_values` is modelled as a stable ascending sort.
* Python's `round` rounds half to even (banker's rounding) on the exact
  quotient; for the percentage computations of the source the float quotient
  `100*num/den` is correctly rounded and `den` is far below the scale at which
  double rounding could disturb a half-way comparison, so exact rational
  rounding half-to-even is the faithful model.
* Python's `sorted` on strings is lexicographic by code point, which is
  exactly the order of Lean's `String` linear order.
-/

/-- Day length in seconds (timestamps are modelled in seconds). -/
def secondsPerDay : Int := 86400

/-- `(d1 - d2).days` of pandas `Timedelta`: floor division of the difference
by the length of a day. -/
def tdDays (d1 d2 : Int) : Int := Int.fdiv (d1 - d2) secondsPerDay

/-- The row-wise `status` function of `load_data` (src/Dashboard.py lines
24-32), applied to a row's (already coerced) `due_date` and the evaluation
instant `today`:

* missing `due_date` → `"No Due"`;
* `due_date < today` → `"Overdue"`;
* `(due_date - today).days <= 7` → `"Due Soon"`;
* otherwise → `"On Track"`.

It is a pure function of `(due_date, today)`, so re-evaluation at the same
arguments trivially yields the same value. -/
def status (due_date : Option Int) (today : Int) : String :=
  match due_date with
  | none => "No Due"
  | some d =>
    if d < today then "Overdue"
    else if tdDays d today ≤ 7 then "Due Soon"
    else "On Track"

/-- The four-branch status rule as worded by the spec (§4.1) and claim C1:
branch 3 tests `0 ≤ (due_date − now) in days ≤ 7` with an explicit lower
bound.  Stated from the spec's words, to be compared with `status`. -/
def statusSpec (due_date : Option Int) (now : Int) : String :=
  match due_date with
  | none => "No Due"
  | some d =>
    if d < now then "Overdue"
    else if 0 ≤ tdDays d now ∧ tdDays d now ≤ 7 then "Due Soon"
    else "On Track"

/-- A normalized record, one row of the loaded dataset: the eight source
columns of the spreadsheet (dates already coerced, with unparseable values as
`none`) plus the derived `status` column. -/
structure Record where
  person : String
  feature_category : String
  sentiment : String
  topic : String
  action : String
  date : Option Int
  due_date : Option Int
  raw_text : String
  status : String
deriving Repr, DecidableEq

/-- A raw row as it stands right after the `pd.to_datetime(..., errors="coerce")`
lines of `load_data` (src lines 19-20): the eight source columns, dates already
`Option`-valued (coercion of an unparseable date is `none`), no `status` yet. -/
structure RawRow where
  person : String
  feature_category : String
  sentiment : String
  topic : String
  action : String
  date : Option Int
  due_date : Option Int
  raw_text : String
deriving Repr, DecidableEq

/-- `load_data` (src lines 17-34), after the read/coerce boundary: derive each
row's `status` and return the dataset in row order.

The `today` argument models the value of `pd.Timestamp.today()` that the
*source* reads from the system clock inside `load_data` (src line 23); the
source function itself takes no such parameter, so `today` is an ambient,
clock-supplied input of the computation, not a caller-supplied one. -/
def load_data (rows : List RawRow) (today : Int) : List Record :=
  rows.map (fun r =>
    { person := r.person, feature_category := r.feature_category,
      sentiment := r.sentiment, topic := r.topic, action := r.action,
      date := r.date, due_date := r.due_date, raw_text := r.raw_text,
      status := status r.due_date today })

/-- `uniqueAux seen l`: the elements of `l` not in `seen`, first occurrences
only, in order of first appearance. -/
def uniqueAux {α : Type} [BEq α] (seen : List α) : List α → List α
  | [] => []
  | x :: xs =>
    if seen.contains x then uniqueAux seen xs
    else x :: uniqueAux (x :: seen) xs

/-- pandas `Series.unique()`: the distinct values in order of first
appearance. -/
def unique {α : Type} [BEq α] (l : List α) : List α := uniqueAux [] l

/-- The three-way membership filter (src lines 44-48): keep the records whose
`person`, `feature_category` and `sentiment` each lie in the corresponding
selection, preserving dataset order.  `isin` is list membership. -/
def df_filt (df : List Record) (person_sel feature_sel sent_sel : List String) :
    List Record :=
  df.filter (fun r =>
    person_sel.contains r.person && feature_sel.contains r.feature_category &&
      sent_sel.contains r.sentiment)

/-- `total_topics = len(df_filt)` (src line 51). -/
def total_topics (view : List Record) : Nat := view.length

/-- `pos = (df_filt['sentiment'] == '+').sum()` (src line 52). -/
def pos (view : List Record) : Nat := view.countP (fun r => r.sentiment == "+")

/-- `mix = (df_filt['sentiment'] == '±').sum()` (src line 53). -/
def mix (view : List Record) : Nat := view.countP (fun r => r.sentiment == "±")

/-- `neg = (df_filt['sentiment'] == '-').sum()` (src line 54). -/
def neg (view : List Record) : Nat := view.countP (fun r => r.sentiment == "-")

/-- `due_soon = (df_filt['status'] == 'Due Soon').sum()` (src line 55). -/
def due_soon (view : List Record) : Nat :=
  view.countP (fun r => r.status == "Due Soon")

/-- `overdue = (df_filt['status'] == 'Overdue').sum()` (src line 56). -/
def overdue (view : List Record) : Nat :=
  view.countP (fun r => r.status == "Overdue")

/-- The KPI summary of the spec's §4.3: the six counts of src lines 51-56
bundled as one fixed-shape aggregate. -/
structure KPISummary where
  total : Nat
  positive : Nat
  mixed : Nat
  negative : Nat
  due_soon : Nat
  overdue : Nat
deriving Repr, DecidableEq

/-- The spec's `aggregate(view) -> KPISummary` interface (§6) over the six
KPI counts of src lines 51-56. -/
def aggregate (view : List Record) : KPISummary :=
  { total := total_topics view, positive := pos view, mixed := mix view,
    negative := neg view, due_soon := due_soon view, overdue := overdue view }

/-- Exact rounding of `num / den` (for `den > 0`) half to even: the semantics
of Python's built-in `round` on the quotient.  (The source computes the
quotient in floating point; at the source's scales the float quotient is
correctly rounded and never crosses a half-way point, so the exact rational
rounding is the faithful model; see the header note.) -/
def pyRound (num den : Nat) : Nat :=
  let q := num / den
  let r := num % den
  if 2 * r < den then q
  else if den < 2 * r then q + 1
  else if q % 2 == 0 then q else q + 1

/-- `_safe_pct(num, den)` (src lines 71-72): `0 if den == 0 else
round(100 * num / den)`. -/
def _safe_pct (num den : Nat) : Nat :=
  if den == 0 then 0 else pyRound (100 * num) den

/-- The maximum of `f` over `l`, starting from `a`: pandas
`Series.max()` over the value counts (with a zero floor for the empty case). -/
def foldMax {α : Type} (f : α → Nat) (a : Nat) (l : List α) : Nat :=
  l.foldl (fun m x => max m (f x)) a

/-- `cat_counts.max()`: the largest occurrence count among the distinct
values of `cats` (0 when `cats` is empty). -/
def maxCatCount (cats : List String) : Nat :=
  foldMax (fun c => cats.count c) 0 (unique cats)

/-- `first-maximum` fold: starting from `b`, replace the current best only on
a strictly larger `f`-value.  Over the distinct values in first-appearance
order this selects the first value attaining the maximum. -/
def foldBest {α : Type} (f : α → Nat) (b : α) (l : List α) : α :=
  l.foldl (fun best x => if f best < f x then x else best) b

/-- `value_counts().idxmax()` of the source (src lines 80-82, 92-93, 123,
126): `value_counts()` lists the counts of the distinct values in descending
count order — the order of equal-count entries is implementation defined in
pandas and modelled as first-appearance order (stable sort; the spec's §9
deterministic reading) — and `idxmax()` takes the first index attaining the
maximum, hence the first value, in first-appearance order, of maximal count.
`""` for an empty series (whose `idxmax` raises; every use in the source is
guarded by a non-emptiness test). -/
def dominantCat (cats : List String) : String :=
  match unique cats with
  | [] => ""
  | c :: rest => foldBest (fun x => cats.count x) c rest

/-- The dominant category in the words of the spec and of claims C5/C6/C8:
the category with the highest occurrence count, ties broken in favour of the
first category encountered in view order among those tied for the maximum.
Stated from the spec's words, to be compared with `dominantCat`. -/
def specDominant (cats : List String) : String :=
  ((unique cats).find? (fun c => cats.count c == maxCatCount cats)).getD ""

/-- Rule 1, overall focus (src lines 80-84), markdown emphasis elided. -/
def rule1Lines (df : List Record) : List String :=
  let cats := df.map Record.feature_category
  if (unique cats).isEmpty then []
  else
    let top_cat := dominantCat cats
    let top_cat_pct := _safe_pct (maxCatCount cats) df.length
    ["Focus is on " ++ top_cat ++ " (" ++ toString top_cat_pct ++ "% of topics)."]

/-- The category of Rule 1's emitted line, in the spec's words (claim C5):
dominant category and percentage `round(100 × count / total)` of the view,
division by zero guarded to 0.  Stated from the claim's words. -/
def specFocusLine (df : List Record) : String :=
  let cats := df.map Record.feature_category
  let cat := specDominant cats
  let pct := _safe_pct (cats.count cat) df.length
  "Focus is on " ++ cat ++ " (" ++ toString pct ++ "% of topics)."

/-- `sorted(df['person'].dropna().unique())` (src line 87): the distinct
persons of the view, sorted ascending (Python's string order = lexicographic
by code point = Lean's `String` order; `person` is non-null in the data model,
so `dropna` is the identity). -/
def sortedPersons (df : List Record) : List String :=
  List.insertionSort (· ≤ ·) (unique (df.map Record.person))

/-- The body of Rule 2's per-person loop (src lines 88-105), markdown
emphasis elided: the person's sub-view, the `continue` guard on an empty
sub-view (unreachable: every person is drawn from the view), the sub-view's
top category and percentage, sentiment counts, positive rate and urgent
count, emitted as one line. -/
def rule2Body (df : List Record) (p : String) : List String :=
  let sub := df.filter (fun r => r.person == p)
  if sub.isEmpty then []
  else
    let cats := sub.map Record.feature_category
    let p_top_cat := if (unique cats).isEmpty then "N/A" else dominantCat cats
    let p_top_pct :=
      _safe_pct (if (unique cats).isEmpty then 0 else maxCatCount cats) sub.length
    let p_pos := sub.countP (fun r => r.sentiment == "+")
    let p_mix := sub.countP (fun r => r.sentiment == "±")
    let p_neg := sub.countP (fun r => r.sentiment == "-")
    let pos_rate := _safe_pct p_pos sub.length
    let p_due :=
      sub.countP (fun r => r.status == "Due Soon" || r.status == "Overdue")
    [p ++ ": mainly " ++ p_top_cat ++ " (" ++ toString p_top_pct ++
      "%). Sentiment → +:" ++ toString p_pos ++ ", ±:" ++ toString p_mix ++
      ", -:" ++ toString p_neg ++ " (" ++ toString pos_rate ++
      "% positive). Urgent items: " ++ toString p_due ++ "."]

/-- Rule 2, per-person snapshot (src lines 86-105): the loop body applied to
each distinct person of the view in ascending order. -/
def rule2Lines (df : List Record) : List String :=
  (sortedPersons df).flatMap (rule2Body df)

/-- The per-person snapshot line in the words of claim C6: dominant category
and percentage of the person's sub-view (as in Rule 1), the three sentiment
counts, `rate = round(100 × pos / |sub-view|)` and the count of urgent
(DueSoon/Overdue) items.  Stated from the claim's words. -/
def specPersonLine (df : List Record) (p : String) : String :=
  let sub := df.filter (fun r => r.person == p)
  let cats := sub.map Record.feature_category
  let cat := specDominant cats
  let pct := _safe_pct (cats.count cat) sub.length
  let posN := sub.countP (fun r => r.sentiment == "+")
  let mixN := sub.countP (fun r => r.sentiment == "±")
  let negN := sub.countP (fun r => r.sentiment == "-")
  let rate := _safe_pct posN sub.length
  let urgent :=
    sub.countP (fun r => r.status == "Due Soon" || r.status == "Overdue")
  p ++ ": mainly " ++ cat ++ " (" ++ toString pct ++
    "%). Sentiment → +:" ++ toString posN ++ ", ±:" ++ toString mixN ++
    ", -:" ++ toString negN ++ " (" ++ toString rate ++
    "% positive). Urgent items: " ++ toString urgent ++ "."

/-- `status ∈ {'Due Soon', 'Overdue'}` — the urgency mask of src lines 101,
108 and 181. -/
def isDueB (r : Record) : Bool :=
  r.status == "Due Soon" || r.status == "Overdue"

/-- Ascending order on nullable due dates, missing values last (pandas
`sort_values` puts `NaT` at the end). -/
def dueLeB : Option Int → Option Int → Bool
  | some a, some b => decide (a ≤ b)
  | some _, none => true
  | none, _ => true

/-- The sort relation of `due.sort_values('due_date')` (src line 113) on
records.  The order of records with equal due dates after pandas' sort is
implementation defined and modelled as stable (input order). -/
def dueDateLe (a b : Record) : Prop := dueLeB a.due_date b.due_date = true

instance : DecidableRel dueDateLe := fun _ _ => instDecidableEqBool _ _

/-- Civil date `(year, month, day)` of a day number counted from 1970-01-01
(Howard Hinnant's days-to-civil algorithm; the intermediate quantities are
non-negative, so truncating division is floor division). -/
def civilFromDays (z0 : Int) : Int × Int × Int :=
  let z := z0 + 719468
  let era := Int.fdiv z 146097
  let doe := z - era * 146097
  let yoe := (doe - doe / 1460 + doe / 36524 - doe / 146096) / 365
  let y := yoe + era * 400
  let doy := doe - (365 * yoe + yoe / 4 - yoe / 100)
  let mp := (5 * doy + 2) / 153
  let d := doy - (153 * mp + 2) / 5 + 1
  let m := if mp < 10 then mp + 3 else mp - 9
  (if m ≤ 2 then y + 1 else y, m, d)

/-- Two-digit zero-padded rendering of a month or day number. -/
def pad2 (n : Int) : String := if n < 10 then "0" ++ toString n else toString n

/-- Four-digit zero-padded rendering of a year number. -/
def pad4 (n : Int) : String :=
  if n < 10 then "000" ++ toString n
  else if n < 100 then "00" ++ toString n
  else if n < 1000 then "0" ++ toString n
  else toString n

/-- `Timestamp.date()` rendered as Python prints it (`YYYY-MM-DD`): the civil
date of the timestamp's day. -/
def dateStr (t : Int) : String :=
  match civilFromDays (Int.fdiv t secondsPerDay) with
  | (y, m, d) => pad4 y ++ "-" ++ pad2 m ++ "-" ++ pad2 d

/-- The date of a nullable timestamp (`NaT` when missing; unreachable in
Rule 3, whose records all have a non-`NoDue` status when statuses are
derived by `load_data`). -/
def dueDateStr : Option Int → String
  | some t => dateStr t
  | none => "NaT"

/-- One deadline item of Rule 3's second line (src line 114), markdown
emphasis around the topic elided: `"<date> – <person>: <topic>"` (a spaced
en-dash, as in the source's f-string). -/
def renderDeadline (r : Record) : String :=
  dueDateStr r.due_date ++ " – " ++ r.person ++ ": " ++ r.topic

/-- Rule 3, risk and urgency signal (src lines 107-115), markdown emphasis
elided: if the urgent sub-view is non-empty, an urgency-count line, then a
`"Next deadlines → "` line joining the three earliest deadlines. -/
def rule3Lines (df : List Record) : List String :=
  let due := df.filter isDueB
  if due.isEmpty then []
  else
    let n := due.length
    let overdue_cnt := due.countP (fun r => r.status == "Overdue")
    let up_next := (List.insertionSort dueDateLe due).take 3
    let labels := up_next.map renderDeadline
    ["Urgency: " ++ toString n ++ " items require attention (" ++
        toString overdue_cnt ++ " overdue).",
      "Next deadlines → " ++ String.intercalate " | " labels]

/-- The fixed friction category set of src lines 119-121. -/
def frictionCats : List String :=
  ["Risk / Incident Management", "Process / Quality Metrics",
    "Projects / Execution"]

/-- Rule 4, wins vs. friction (src lines 117-127), markdown emphasis elided. -/
def rule4Lines (df : List Record) : List String :=
  let wins := df.filter (fun r => r.sentiment == "+")
  let frictions := df.filter (fun r =>
    r.sentiment != "+" && frictionCats.contains r.feature_category)
  (if wins.isEmpty then []
    else
      let top_win_cat := dominantCat (wins.map Record.feature_category)
      let k := min 3 wins.length
      ["Wins cluster in " ++ top_win_cat ++ " (e.g., " ++ toString k ++
          " recent positives)."]) ++
  (if frictions.isEmpty then []
    else
      let top_frict_cat := dominantCat (frictions.map Record.feature_category)
      ["Friction hotspots: " ++ top_frict_cat ++
          " (prioritize coaching/unblocking)."])

/-- The wins line in the words of claim C8: dominant category among the
Positive records (same tie-break as Rule 1), count capped at 3.  Stated from
the claim's words. -/
def specWinsLine (df : List Record) : String :=
  let wins := df.filter (fun r => r.sentiment == "+")
  let cat := specDominant (wins.map Record.feature_category)
  let k := min 3 (df.countP (fun r => r.sentiment == "+"))
  "Wins cluster in " ++ cat ++ " (e.g., " ++ toString k ++ " recent positives)."

/-- The friction line in the words of claim C8: dominant category among the
records of non-Positive sentiment whose category lies in the fixed friction
set.  Stated from the claim's words. -/
def specFrictionLine (df : List Record) : String :=
  let frictions := df.filter (fun r =>
    r.sentiment != "+" && frictionCats.contains r.feature_category)
  let cat := specDominant (frictions.map Record.feature_category)
  "Friction hotspots: " ++ cat ++ " (prioritize coaching/unblocking)."

/-- `build_insights` (src lines 74-129): the empty guard, then the
concatenation, in order, of the lines of Rules 1-4. -/
def build_insights (df : List Record) : List String :=
  if df.isEmpty then ["No data under current filters."]
  else rule1Lines df ++ rule2Lines df ++ rule3Lines df ++ rule4Lines df

/-- The lookup of the Conversation Explorer (src line 206):
`df_filt[df_filt['topic'] == sel_topic].iloc[0]`, i.e. the first record of
the view whose topic equals the key; `none` models the `NotFound` failure
(`iloc[0]` raising on an empty selection). -/
def sel_row (view : List Record) (key : String) : Option Record :=
  view.find? (fun r => r.topic == key)

/-! Concrete data used to instantiate the theorems: the three-record example
of the spec's §8, a lone urgent record, a pair of records sharing a topic,
and a raw row whose status depends on the load-time clock reading.
Day 19723 is 2024-01-01 and day 20000 is 2024-10-04. -/

/-- A raw row with the given person, category, sentiment, topic and due
date (remaining fields empty/missing). -/
def mkRow (p c s t : String) (dd : Option Int) : RawRow :=
  { person := p, feature_category := c, sentiment := s, topic := t,
    action := "", date := none, due_date := dd, raw_text := "" }

/-- The spec's §8 example rows: Alice `Process / Quality Metrics` positive
due in 3 days, Alice `Process / Quality Metrics` negative due 2 days ago,
Bob `Projects / Execution` mixed with no due date. -/
def exampleRows : List RawRow :=
  [mkRow "Alice" "Process / Quality Metrics" "+" "T1" (some (20003 * 86400)),
    mkRow "Alice" "Process / Quality Metrics" "-" "T2" (some (19998 * 86400)),
    mkRow "Bob" "Projects / Execution" "±" "T3" none]

/-- The evaluation instant of the §8 example: day 20000 (2024-10-04). -/
def exampleNow : Int := 20000 * 86400

/-- The §8 example view: the example rows as loaded at `exampleNow`. -/
def exampleView : List Record := load_data exampleRows exampleNow

/-- A single overdue record (due 2024-01-01), for evaluating Rule 3. -/
def urgentRec : Record :=
  { person := "Alice", feature_category := "Process / Quality Metrics",
    sentiment := "-", topic := "Migration", action := "", date := none,
    due_date := some (19723 * 86400), raw_text := "", status := "Overdue" }

/-- First of two records sharing the topic `"Roadmap"`. -/
def topicRecA : Record :=
  { person := "Alice", feature_category := "Growth / Strategy",
    sentiment := "+", topic := "Roadmap", action := "", date := none,
    due_date := none, raw_text := "first", status := "No Due" }

/-- Second of two records sharing the topic `"Roadmap"`. -/
def topicRecB : Record :=
  { person := "Bob", feature_category := "Projects / Execution",
    sentiment := "-", topic := "Roadmap", action := "", date := none,
    due_date := none, raw_text := "second", status := "No Due" }

/-- A raw row due on day 19723: its derived status is whatever the clock
read at load time makes of that date. -/
def clockRow : RawRow :=
  mkRow "Alice" "Process / Quality Metrics" "+" "Launch" (some (19723 * 86400))

/-! Helper lemmas about `unique` (pandas `Series.unique`). -/

theorem mem_uniqueAux {α : Type} [BEq α] [LawfulBEq α] (l : List α) :
    ∀ (seen : List α) (x : α), x ∈ uniqueAux seen l ↔ x ∈ l ∧ x ∉ seen := by
  induction l with
  | nil => intro seen x; simp [uniqueAux]
  | cons y ys ih =>
    intro seen x
    by_cases hc : seen.contains y = true
    · have hy : y ∈ seen := List.elem_iff.mp hc
      rw [uniqueAux, if_pos hc, ih]
      constructor
      · rintro ⟨hxy, hxs⟩
        exact ⟨List.mem_cons_of_mem _ hxy, hxs⟩
      · rintro ⟨hxy, hxs⟩
        rcases List.mem_cons.mp hxy with rfl | hxy
        · exact absurd hy hxs
        · exact ⟨hxy, hxs⟩
    · have hy : y ∉ seen := fun hmem => hc (List.elem_iff.mpr hmem)
      rw [uniqueAux, if_neg hc]
      by_cases hxy : x = y
      · subst hxy
        simp [hy]
      · rw [List.mem_cons, List.mem_cons, ih]
        simp [hxy]

theorem mem_unique {α : Type} [BEq α] [LawfulBEq α] (l : List α) (x : α) :
    x ∈ unique l ↔ x ∈ l := by
  rw [unique, mem_uniqueAux]
  simp

theorem nodup_uniqueAux {α : Type} [BEq α] [LawfulBEq α] (l : List α) :
    ∀ seen : List α, (uniqueAux seen l).Nodup := by
  induction l with
  | nil => intro seen; simp [uniqueAux]
  | cons y ys ih =>
    intro seen
    by_cases hc : seen.contains y = true
    · rw [uniqueAux, if_pos hc]; exact ih seen
    · rw [uniqueAux, if_neg hc, List.nodup_cons]
      refine ⟨fun hmem => ?_, ih _⟩
      have := ((mem_uniqueAux ys (y :: seen) y).mp hmem).2
      exact this (List.mem_cons_self _ _)

theorem nodup_unique {α : Type} [BEq α] [LawfulBEq α] (l : List α) :
    (unique l).Nodup := nodup_uniqueAux l []

theorem unique_ne_nil {α : Type} [BEq α] {l : List α} (h : l ≠ []) :
    unique l ≠ [] := by
  match l with
  | [] => exact absurd rfl h
  | x :: xs =>
    rw [unique, uniqueAux]
    simp

/-! Helper lemmas about the maximum and first-maximum folds, leading to the
characterisation of `value_counts().idxmax()` (`dominantCat`) as the spec's
dominant category (`specDominant`). -/

theorem le_foldMax {α : Type} (f : α → Nat) :
    ∀ (l : List α) (a : Nat), a ≤ foldMax f a l := by
  intro l
  induction l with
  | nil => intro a; simp [foldMax]
  | cons x xs ih =>
    intro a
    have h1 : max a (f x) ≤ foldMax f (max a (f x)) xs := ih _
    have h2 : a ≤ max a (f x) := Nat.le_max_left _ _
    calc a ≤ foldMax f (max a (f x)) xs := le_trans h2 h1
      _ = foldMax f a (x :: xs) := by rw [foldMax, foldMax, List.foldl_cons]

theorem mem_le_foldMax {α : Type} (f : α → Nat) :
    ∀ (l : List α) (a : Nat) (y : α), y ∈ l → f y ≤ foldMax f a l := by
  intro l
  induction l with
  | nil => intro a y hy; cases hy
  | cons x xs ih =>
    intro a y hy
    rw [foldMax, List.foldl_cons]
    rcases List.mem_cons.mp hy with rfl | hy
    · exact le_trans (le_trans (Nat.le_max_right a (f y)) (le_foldMax f xs _)) le_rfl
    · exact ih (max a (f x)) y hy

theorem foldBest_of_le {α : Type} (f : α → Nat) :
    ∀ (l : List α) (b : α), (∀ y ∈ l, f y ≤ f b) → foldBest f b l = b := by
  intro l
  induction l with
  | nil => intro b _; rfl
  | cons x xs ih =>
    intro b h
    rw [foldBest, List.foldl_cons]
    have hx : ¬ f b < f x := not_lt.mpr (h x (List.mem_cons_self _ _))
    rw [if_neg hx]
    exact ih b (fun y hy => h y (List.mem_cons_of_mem _ hy))

theorem find?_foldBest {α : Type} (f : α → Nat) :
    ∀ (l : List α) (b : α),
      List.find? (fun x => f x == foldMax f (f b) l) (b :: l) =
        some (foldBest f b l) := by
  intro l
  induction l with
  | nil =>
    intro b
    have hpb : (f b == foldMax f (f b) []) = true := by simp [foldMax]
    simp [List.find?_cons, hpb, foldBest]
  | cons x xs ih =>
    intro b
    set b' := if f b < f x then x else b with hb'
    have hfb' : f b' = max (f b) (f x) := by
      by_cases h : f b < f x
      · rw [hb', if_pos h, Nat.max_eq_right (le_of_lt h)]
      · rw [hb', if_neg h, Nat.max_eq_left (not_lt.mp h)]
    have hM : foldMax f (f b) (x :: xs) = foldMax f (f b') xs := by
      simp only [foldMax, List.foldl_cons, hfb']
    have hB : foldBest f b (x :: xs) = foldBest f b' xs := by
      simp only [foldBest, List.foldl_cons]
    rw [hM, hB]
    have hble : f b ≤ foldMax f (f b') xs :=
      le_trans (by rw [hfb']; exact Nat.le_max_left _ _) (le_foldMax f xs (f b'))
    have hxle : f x ≤ foldMax f (f b') xs :=
      le_trans (by rw [hfb']; exact Nat.le_max_right _ _) (le_foldMax f xs (f b'))
    by_cases h1 : f b = foldMax f (f b') xs
    · -- the head already attains the maximum: found first, and the
      -- strictly-greater fold never moves off it
      have hnb : ¬ f b < f x := by omega
      have hb'b : b' = b := by rw [hb', if_neg hnb]
      have hstay : foldBest f b' xs = b := by
        rw [hb'b]
        apply foldBest_of_le
        intro y hy
        have := mem_le_foldMax f xs (f b') y hy
        omega
      have hpb : (f b == foldMax f (f b') xs) = true := by simp [h1]
      rw [hstay]
      simp [List.find?_cons, hpb]
    · by_cases h2 : f x = foldMax f (f b') xs
      · -- x is the first to attain the maximum
        have hlt : f b < f x := by omega
        have hb'x : b' = x := by rw [hb', if_pos hlt]
        have hpb : (f b == foldMax f (f b') xs) = false := by simp [h1]
        rw [hb'x] at hpb ⊢
        simp only [List.find?_cons, hpb]
        exact ih x
      · -- neither head attains the maximum: both sides skip into xs
        have hpb : (f b == foldMax f (f b') xs) = false := by simp [h1]
        have hfb'' : f b' ≠ foldMax f (f b') xs := by
          intro heq
          rcases max_choice (f b) (f x) with hc | hc
          · exact h1 (by rw [← hc, ← hfb']; exact heq)
          · exact h2 (by rw [← hc, ← hfb']; exact heq)
        have hpb' : (f b' == foldMax f (f b') xs) = false := by simp [hfb'']
        have hpx : (f x == foldMax f (f b') xs) = false := by simp [h2]
        have hihb := ih b'
        simp only [List.find?_cons, hpb'] at hihb
        simp only [List.find?_cons, hpb, hpx]
        exact hihb

theorem maxCatCount_eq {cats : List String} {c : String} {rest : List String}
    (h : unique cats = c :: rest) :
    maxCatCount cats = foldMax (fun x => cats.count x) (cats.count c) rest := by
  simp only [maxCatCount, h, foldMax, List.foldl_cons, Nat.zero_max]

theorem dominant_eq_spec (cats : List String) (h : cats ≠ []) :
    dominantCat cats = specDominant cats := by
  obtain ⟨c, rest, hcr⟩ : ∃ c rest, unique cats = c :: rest := by
    cases hq : unique cats with
    | nil => exact absurd hq (unique_ne_nil h)
    | cons c rest => exact ⟨c, rest, rfl⟩
  have hmax := maxCatCount_eq hcr
  have hf := find?_foldBest (fun x => cats.count x) rest c
  simp only [dominantCat, specDominant, hcr, hmax, hf, Option.getD_some]

theorem count_specDominant (cats : List String) (h : cats ≠ []) :
    cats.count (specDominant cats) = maxCatCount cats := by
  obtain ⟨c, rest, hcr⟩ : ∃ c rest, unique cats = c :: rest := by
    cases hq : unique cats with
    | nil => exact absurd hq (unique_ne_nil h)
    | cons c rest => exact ⟨c, rest, rfl⟩
  have hmax := maxCatCount_eq hcr
  have hf := find?_foldBest (fun x => cats.count x) rest c
  have hgot : specDominant cats = foldBest (fun x => cats.count x) c rest := by
    simp only [specDominant, hcr, hmax, hf, Option.getD_some]
  have hp := List.find?_some hf
  simp only [] at hp
  rw [hgot, hmax]
  exact beq_iff_eq.mp hp

/-! The claims. -/

/-- C1: for every record and every evaluation instant, the derived `status`
is a pure function of `(due_date, now)` computed by the four-branch rule
(missing → `No Due`; past due → `Overdue`; difference of at least 0 and at
most 7 days → `Due Soon`; otherwise → `On Track`).  `status` is a function
of exactly these two arguments, so re-evaluating at the same pair trivially
yields the same value; the equation below shows it computes the spec's rule,
including the lower bound of branch 3 that the source leaves implicit (it
follows from branch 2 having failed). -/
theorem c1_status_four_branch (dd : Option Int) (now : Int) :
    status dd now = statusSpec dd now := by
  cases dd with
  | none => rfl
  | some d =>
    by_cases h : d < now
    · simp [status, statusSpec, h]
    · have h0 : 0 ≤ tdDays d now := by
        rw [tdDays]
        exact Int.fdiv_nonneg (by omega) (by norm_num [secondsPerDay])
      simp only [status, statusSpec, if_neg h]
      by_cases h7 : tdDays d now ≤ 7
      · rw [if_pos h7, if_pos ⟨h0, h7⟩]
      · rw [if_neg h7, if_neg (fun hc => h7 hc.2)]

/-- C2: the filter returns exactly the records whose `person`,
`feature_category` and `sentiment` lie in the three selections, as an
order-preserving subsequence of the dataset, and filtering with the full
distinct-value sets of the dataset is the identity. -/
theorem c2_filter_membership_identity (df : List Record)
    (ps cs ss : List String) :
    (df_filt df ps cs ss).Sublist df
  ∧ (∀ r, r ∈ df_filt df ps cs ss ↔
      r ∈ df ∧ r.person ∈ ps ∧ r.feature_category ∈ cs ∧ r.sentiment ∈ ss)
  ∧ df_filt df (unique (df.map Record.person))
      (unique (df.map Record.feature_category))
      (unique (df.map Record.sentiment)) = df := by
  refine ⟨List.filter_sublist _, fun r => ?_, ?_⟩
  · simp [df_filt, List.mem_filter, Bool.and_eq_true, List.contains,
      List.elem_iff, and_assoc]
  · apply List.filter_eq_self.mpr
    intro r hr
    have hp : r.person ∈ unique (df.map Record.person) :=
      (mem_unique _ _).mpr (List.mem_map_of_mem _ hr)
    have hc : r.feature_category ∈ unique (df.map Record.feature_category) :=
      (mem_unique _ _).mpr (List.mem_map_of_mem _ hr)
    have hs : r.sentiment ∈ unique (df.map Record.sentiment) :=
      (mem_unique _ _).mpr (List.mem_map_of_mem _ hr)
    simp [List.contains, List.elem_iff, hp, hc, hs]

/-- C3: the KPI aggregation is total: `total` is the record count,
`positive`/`mixed`/`negative` count the three sentiment symbols,
`due_soon`/`overdue` count the two urgent statuses, the empty view gives the
all-zero summary, and when every sentiment is one of the three symbols the
three sentiment counts sum to the total. -/
theorem c3_aggregate_counts (view : List Record) :
    (aggregate view).total = view.length
  ∧ (aggregate view).positive = view.countP (fun r => r.sentiment == "+")
  ∧ (aggregate view).mixed = view.countP (fun r => r.sentiment == "±")
  ∧ (aggregate view).negative = view.countP (fun r => r.sentiment == "-")
  ∧ (aggregate view).due_soon = view.countP (fun r => r.status == "Due Soon")
  ∧ (aggregate view).overdue = view.countP (fun r => r.status == "Overdue")
  ∧ aggregate [] = ⟨0, 0, 0, 0, 0, 0⟩
  ∧ ((∀ r ∈ view, r.sentiment = "+" ∨ r.sentiment = "±" ∨ r.sentiment = "-") →
      (aggregate view).positive + (aggregate view).mixed +
        (aggregate view).negative = (aggregate view).total) := by
  refine ⟨rfl, rfl, rfl, rfl, rfl, rfl, rfl, ?_⟩
  intro h
  simp only [aggregate, pos, mix, neg, total_topics]
  induction view with
  | nil => rfl
  | cons r rs ih =>
    have hr := h r (List.mem_cons_self _ _)
    have ih' := ih (fun x hx => h x (List.mem_cons_of_mem _ hx))
    simp only [List.length_cons]
    rcases hr with h1 | h1 | h1
    · rw [List.countP_cons_of_pos _ _ (by rw [h1]; decide),
        List.countP_cons_of_neg _ _ (by rw [h1]; decide),
        List.countP_cons_of_neg _ _ (by rw [h1]; decide)]
      omega
    · rw [List.countP_cons_of_neg _ _ (by rw [h1]; decide),
        List.countP_cons_of_pos _ _ (by rw [h1]; decide),
        List.countP_cons_of_neg _ _ (by rw [h1]; decide)]
      omega
    · rw [List.countP_cons_of_neg _ _ (by rw [h1]; decide),
        List.countP_cons_of_neg _ _ (by rw [h1]; decide),
        List.countP_cons_of_pos _ _ (by rw [h1]; decide)]
      omega

/-- Witness for C3 at the spec's §8 example view: every sentiment is one of
the three symbols, and the three sentiment counts sum to the total. -/
theorem c3_aggregate_counts_witness :
    (∀ r ∈ exampleView, r.sentiment = "+" ∨ r.sentiment = "±" ∨ r.sentiment = "-")
  ∧ (aggregate exampleView).positive + (aggregate exampleView).mixed +
      (aggregate exampleView).negative = (aggregate exampleView).total :=
  ⟨by decide, (c3_aggregate_counts exampleView).2.2.2.2.2.2.2 (by decide)⟩

/-- C4: the empty view produces exactly the one-line guard output. -/
theorem c4_empty_guard :
    build_insights [] = ["No data under current filters."] := rfl

/-- C5: for a non-empty view the first insight line is Rule 1's focus line,
with the dominant category (highest count, ties to the first category in view
order) and its percentage of the total. -/
theorem c5_rule1_focus (view : List Record) (h : view ≠ []) :
    (build_insights view).head? = some (specFocusLine view) := by
  have hcats : view.map Record.feature_category ≠ [] := by
    simp [List.map_eq_nil_iff, h]
  have hie : view.isEmpty = false := List.isEmpty_eq_false.mpr h
  have huni : (unique (view.map Record.feature_category)).isEmpty = false :=
    List.isEmpty_eq_false.mpr (unique_ne_nil hcats)
  rw [build_insights, if_neg (by simp [hie]), rule1Lines]
  simp only [huni, Bool.false_eq_true, if_false, List.cons_append,
    List.head?_cons, specFocusLine, Option.some.injEq]
  rw [dominant_eq_spec _ hcats, ← count_specDominant _ hcats]

/-- Witness for C5 at the spec's §8 example view. -/
theorem c5_rule1_focus_witness :
    exampleView ≠ []
  ∧ (build_insights exampleView).head? = some (specFocusLine exampleView) :=
  ⟨by decide, c5_rule1_focus exampleView (by decide)⟩

/-- The body of Rule 2's loop never skips a person drawn from the view: its
`continue` guard is dead and the emitted line is the claim's line. -/
theorem rule2Body_spec (df : List Record) (p : String)
    (hp : p ∈ df.map Record.person) :
    rule2Body df p = [specPersonLine df p] := by
  obtain ⟨r, hr, hrp⟩ := List.mem_map.mp hp
  have hsub : r ∈ df.filter (fun r => r.person == p) :=
    List.mem_filter.mpr ⟨hr, by simp [hrp]⟩
  have hsubne : df.filter (fun r => r.person == p) ≠ [] :=
    List.ne_nil_of_mem hsub
  have hie : (df.filter (fun r => r.person == p)).isEmpty = false :=
    List.isEmpty_eq_false.mpr hsubne
  have hcats :
      (df.filter (fun r => r.person == p)).map Record.feature_category ≠ [] := by
    simp [List.map_eq_nil_iff, hsubne]
  have huni :
      (unique ((df.filter (fun r => r.person == p)).map
        Record.feature_category)).isEmpty = false :=
    List.isEmpty_eq_false.mpr (unique_ne_nil hcats)
  rw [rule2Body]
  simp only [hie, huni, Bool.false_eq_true, if_false, specPersonLine,
    List.cons.injEq, and_true]
  rw [dominant_eq_spec _ hcats, ← count_specDominant _ hcats]

/-- C6: Rule 2 emits exactly one line per distinct person of the view — the
claim's snapshot line for that person — and the persons are in strictly
ascending alphabetical order regardless of the view's order. -/
theorem c6_rule2_per_person (view : List Record) :
    rule2Lines view = (sortedPersons view).map (specPersonLine view)
  ∧ List.Sorted (· < ·) (sortedPersons view) := by
  constructor
  · rw [rule2Lines]
    have hmem : ∀ p ∈ sortedPersons view, p ∈ view.map Record.person := by
      intro p hp
      exact (mem_unique _ _).mp (((List.perm_insertionSort _ _).mem_iff).mp hp)
    suffices hgen : ∀ ps : List String,
        (∀ p ∈ ps, p ∈ view.map Record.person) →
        ps.flatMap (rule2Body view) = ps.map (specPersonLine view) by
      exact hgen _ hmem
    intro ps
    induction ps with
    | nil => intro _; simp
    | cons q qs ih =>
      intro hps
      rw [List.flatMap_cons, List.map_cons,
        rule2Body_spec view q (hps q (List.mem_cons_self _ _)),
        ih (fun x hx => hps x (List.mem_cons_of_mem _ hx))]
      rfl
  · have hs : List.Sorted (· ≤ ·) (sortedPersons view) :=
      List.sorted_insertionSort _ _
    have hnd : (sortedPersons view).Nodup :=
      ((List.perm_insertionSort _ _).nodup_iff).mpr (nodup_unique _)
    exact hs.lt_of_le hnd

/-- Counting the overdue records inside the urgent sub-view equals counting
them in the whole view (`Overdue` implies urgent). -/
theorem overdue_countP_filter (view : List Record) :
    (view.filter isDueB).countP (fun r => r.status == "Overdue") =
      view.countP (fun r => r.status == "Overdue") := by
  rw [List.countP_filter]
  apply List.countP_congr
  intro r _
  simp only [Bool.and_eq_true, isDueB, Bool.or_eq_true]
  constructor
  · intro hb; exact hb.1
  · intro hb; exact ⟨hb, Or.inr hb⟩

/-- Counterexample for C7, at a view holding one overdue record: the claim
predicts the second emitted line to be exactly the joined deadline items,
each rendered `"<due_date date>–<person>: <topic>"`; the source instead
prefixes the line with `"Next deadlines → "` and renders each item with a
spaced dash, `"<due_date date> – <person>: <topic>"` (src lines 114-115). -/
theorem c7_counterexample :
    rule3Lines [urgentRec] ≠
      ["Urgency: 1 items require attention (1 overdue).",
        dueDateStr (some (19723 * 86400)) ++ "–" ++ "Alice" ++ ": " ++
          "Migration"]
  ∧ rule3Lines [urgentRec] =
      ["Urgency: 1 items require attention (1 overdue).",
        "Next deadlines → " ++ dueDateStr (some (19723 * 86400)) ++ " – " ++
          "Alice" ++ ": " ++ "Migration"] :=
  ⟨by decide, by decide⟩

/-- C7 as amended: when the view has urgent records (status `Due Soon` or
`Overdue`), Rule 3 emits the urgency-count line and then a second line that
is `"Next deadlines → "` followed by the three records of earliest due date
(stable ascending sort), each rendered `"<due_date date> – <person>: <topic>"`
and joined by `" | "`; with no urgent records Rule 3 emits nothing. -/
theorem c7_amended_rule3 (view : List Record) :
    rule3Lines view =
      if view.countP isDueB = 0 then []
      else
        ["Urgency: " ++ toString (view.countP isDueB) ++
            " items require attention (" ++
            toString (view.countP (fun r => r.status == "Overdue")) ++
            " overdue).",
          "Next deadlines → " ++ String.intercalate " | "
            (((List.insertionSort dueDateLe (view.filter isDueB)).take 3).map
              renderDeadline)] := by
  simp only [rule3Lines]
  by_cases hemp : (view.filter isDueB).isEmpty = true
  · have hc : view.countP isDueB = 0 := by
      rw [List.countP_eq_length_filter]
      simpa [List.length_eq_zero, List.isEmpty_iff] using hemp
    rw [if_pos hemp, if_pos hc]
  · have hf : (view.filter isDueB).isEmpty = false := by
      rw [← Bool.not_eq_true]
      exact hemp
    have hc : ¬ view.countP isDueB = 0 := by
      rw [List.countP_eq_length_filter]
      simp [List.length_eq_zero, List.isEmpty_eq_false.mp hf]
    rw [if_neg hemp, if_neg hc]
    rw [overdue_countP_filter view, List.countP_eq_length_filter isDueB view]

/-- C8: Rule 4 emits the wins line exactly when the view has a Positive
record — naming the dominant category among the Positive records (Rule 1's
tie-break) and the capped count — and the friction line exactly when some
record has non-Positive sentiment and a category in the fixed friction set,
naming the dominant category among those records. -/
theorem c8_rule4_wins_friction (view : List Record) :
    rule4Lines view =
      (if view.any (fun r => r.sentiment == "+") then [specWinsLine view]
        else []) ++
      (if view.any (fun r => r.sentiment != "+" &&
          frictionCats.contains r.feature_category) then [specFrictionLine view]
        else []) := by
  simp only [rule4Lines]
  congr 1
  · by_cases hw : view.any (fun r => r.sentiment == "+") = true
    · obtain ⟨r, hr, hpr⟩ := List.any_eq_true.mp hw
      have hne : view.filter (fun r => r.sentiment == "+") ≠ [] :=
        List.ne_nil_of_mem (List.mem_filter.mpr ⟨hr, hpr⟩)
      have hie : (view.filter (fun r => r.sentiment == "+")).isEmpty = false :=
        List.isEmpty_eq_false.mpr hne
      have hcats : (view.filter (fun r => r.sentiment == "+")).map
          Record.feature_category ≠ [] := by
        simp [List.map_eq_nil_iff, hne]
      rw [if_pos hw, if_neg (by simp [hie])]
      simp only [specWinsLine]
      rw [dominant_eq_spec _ hcats, List.countP_eq_length_filter]
    · have hnil : view.filter (fun r => r.sentiment == "+") = [] := by
        rw [List.filter_eq_nil_iff]
        intro a ha hpa
        exact hw (List.any_eq_true.mpr ⟨a, ha, hpa⟩)
      rw [if_neg hw, if_pos (by simp [hnil])]
  · by_cases hw : view.any (fun r => r.sentiment != "+" &&
        frictionCats.contains r.feature_category) = true
    · obtain ⟨r, hr, hpr⟩ := List.any_eq_true.mp hw
      have hne : view.filter (fun r => r.sentiment != "+" &&
          frictionCats.contains r.feature_category) ≠ [] :=
        List.ne_nil_of_mem (List.mem_filter.mpr ⟨hr, hpr⟩)
      have hie : (view.filter (fun r => r.sentiment != "+" &&
          frictionCats.contains r.feature_category)).isEmpty = false :=
        List.isEmpty_eq_false.mpr hne
      have hcats : (view.filter (fun r => r.sentiment != "+" &&
          frictionCats.contains r.feature_category)).map
          Record.feature_category ≠ [] :=
        fun hm => hne (List.map_eq_nil_iff.mp hm)
      rw [if_pos hw, if_neg (by rw [hie]; exact Bool.false_ne_true)]
      simp only [specFrictionLine]
      rw [dominant_eq_spec _ hcats]
    · have hnil : view.filter (fun r => r.sentiment != "+" &&
          frictionCats.contains r.feature_category) = [] := by
        rw [List.filter_eq_nil_iff]
        intro a ha hpa
        exact hw (List.any_eq_true.mpr ⟨a, ha, hpa⟩)
      rw [if_neg hw, if_pos (by rw [hnil]; rfl)]

/-- C9: the lookup returns `none` exactly when no record of the view has the
key as its topic, and a returned record is a matching record at a position
all of whose predecessors in the view fail to match — i.e. the first match
in view order.  `sel_row` is a function of the view and key, so repeated
calls (duplicated topics included) trivially return the same record. -/
theorem c9_lookup_first (view : List Record) (key : String) :
    (sel_row view key = none ↔ ∀ r ∈ view, r.topic ≠ key)
  ∧ ∀ r, sel_row view key = some r →
      r.topic = key ∧
        ∃ pre post, view = pre ++ r :: post ∧ ∀ x ∈ pre, x.topic ≠ key := by
  constructor
  · rw [sel_row, List.find?_eq_none]
    simp only [ne_eq, beq_iff_eq]
  · intro r
    induction view with
    | nil => intro h; simp [sel_row, List.find?] at h
    | cons a as ih =>
      intro h
      by_cases hpa : (a.topic == key) = true
      · have har : a = r := by
          have h' := h
          simp only [sel_row, List.find?_cons, hpa] at h'
          exact Option.some.injEq _ _ ▸ h'
        subst har
        exact ⟨beq_iff_eq.mp hpa, [], as, rfl, by intro x hx; cases hx⟩
      · have h' : sel_row as key = some r := by
          simpa [sel_row, List.find?_cons, hpa] using h
        obtain ⟨hk, pre, post, hsplit, hpre⟩ := ih h'
        refine ⟨hk, a :: pre, post, by rw [hsplit]; rfl, ?_⟩
        intro x hx
        rcases List.mem_cons.mp hx with rfl | hx
        · intro heq; exact hpa (by simp [heq])
        · exact hpre x hx

/-- Witness for C9 at a view whose two records share the topic `"Roadmap"`:
the lookup returns the first of them, with an empty (vacuously non-matching)
prefix. -/
theorem c9_lookup_first_witness :
    topicRecA.topic = "Roadmap"
  ∧ ∃ pre post, [topicRecA, topicRecB] = pre ++ topicRecA :: post ∧
      ∀ x ∈ pre, x.topic ≠ "Roadmap" :=
  (c9_lookup_first [topicRecA, topicRecB] "Roadmap").2 topicRecA (by decide)

/-- Counterexample for C10: the row due on day 19723, loaded at two clock
instants one day before and one day after its due date, gets two different
statuses (`Due Soon` and `Overdue`).  In the source the instant is
`pd.Timestamp.today()` read from the system clock inside `load_data`
(src line 23; likewise line 138 for the next-7-days panel) — the caller
cannot supply it — so the derived statuses are not a function of the
caller's explicit inputs, contrary to the claim. -/
theorem c10_counterexample :
    status (some (19723 * 86400)) (19722 * 86400) ≠
      status (some (19723 * 86400)) (19724 * 86400)
  ∧ load_data [clockRow] (19722 * 86400) ≠ load_data [clockRow] (19724 * 86400) :=
  ⟨by decide, by decide⟩

/-- C10 as amended: status derivation is a deterministic function of the
data and of the clock instant read inside `load_data`, and insight
generation is a deterministic function of the loaded view; whenever two
clock readings classify every row's due date identically — in particular,
for one fixed reading — the derived statuses and the insight sequences are
identical. -/
theorem c10_amended_determinism (rows : List RawRow) (t1 t2 : Int)
    (h : ∀ r ∈ rows, status r.due_date t1 = status r.due_date t2) :
    load_data rows t1 = load_data rows t2
  ∧ build_insights (load_data rows t1) = build_insights (load_data rows t2) := by
  have h1 : load_data rows t1 = load_data rows t2 := by
    rw [load_data, load_data]
    apply List.map_congr_left
    intro r hr
    rw [h r hr]
  exact ⟨h1, congrArg _ h1⟩

/-- Witness for C10's amended claim: two distinct clock instants that leave
the example row's status unchanged yield the same dataset and insights. -/
theorem c10_amended_determinism_witness :
    (∀ r ∈ [clockRow], status r.due_date 100 = status r.due_date 200)
  ∧ load_data [clockRow] 100 = load_data [clockRow] 200
  ∧ build_insights (load_data [clockRow] 100) =
      build_insights (load_data [clockRow] 200) :=
  ⟨by decide,
    (c10_amended_determinism [clockRow] 100 200 (by decide)).1,
    (c10_amended_determinism [clockRow] 100 200 (by decide)).2⟩
